import Mathlib

/-!
Verification of the voice-control dictation core (`src/command_processor.py`,
`src/voice_recognition.py`): a shallow embedding of the utterance segmenter
and of the command-dispatch state machine, with theorems checking the
testable properties stated for them.  Texts are modelled as `List Char`
(the inputs of interest are ASCII; Python's `str.lower`/`str.strip` are
modelled on their ASCII fragment).
-/

namespace VCD

/-! ## Python string helpers -/

/-- Python `str.lower` on one character (ASCII fragment). -/
def pyLowerChar (c : Char) : Char :=
  if 65 ≤ c.toNat ∧ c.toNat ≤ 90 then Char.ofNat (c.toNat + 32) else c

/-- Python `str.lower` (ASCII fragment). -/
def pyLower (s : List Char) : List Char := s.map pyLowerChar

/-- Python whitespace, as used by `str.strip()` and `str.split()`. -/
def pyIsSpace (c : Char) : Bool :=
  c == ' ' || c == '\t' || c == '\n' || c == '\x0d' || c == '\x0b' || c == '\x0c'

/-- Python `str.strip()`: drop leading and trailing whitespace. -/
def pyStrip (s : List Char) : List Char :=
  ((s.dropWhile pyIsSpace).reverse.dropWhile pyIsSpace).reverse

/-- Python `needle in haystack` on strings: substring containment. -/
def isSubstr : List Char → List Char → Bool
  | p, [] => p.isEmpty
  | p, c :: r => p.isPrefixOf (c :: r) || isSubstr p r

/-- Helper for `splitWs`: current (reversed) word accumulator. -/
def splitWsAux : List Char → List Char → List (List Char)
  | [], acc => if acc.isEmpty then [] else [acc.reverse]
  | c :: r, acc =>
    if pyIsSpace c then
      if acc.isEmpty then splitWsAux r [] else acc.reverse :: splitWsAux r []
    else splitWsAux r (c :: acc)

/-- Python `str.split()` with no argument: split on whitespace runs,
discarding empty pieces. -/
def splitWs (s : List Char) : List (List Char) := splitWsAux s []

/-- Python `" ".join(words)`. -/
def joinSpace : List (List Char) → List Char
  | [] => []
  | [w] => w
  | w :: ws => w ++ ' ' :: joinSpace ws

/-- Python `str.rstrip('.')`: drop all trailing dots. -/
def rstripDot (s : List Char) : List Char :=
  (s.reverse.dropWhile (fun c => c == '.')).reverse

/-- Convert a Lean string literal to the `List Char` texts used throughout. -/
def lchars (s : String) : List Char := s.toList

/-! ## A small regular-expression engine

The dispatcher uses `re.search` on a handful of fixed patterns.  We embed
exactly the constructs those patterns use: literal characters, `.`, `\w`,
`\d`, concatenation, alternation, greedy/lazy repetition, `?`, numbered
capture groups, and the `^` / `$` anchors.  Matching follows Python's
backtracking order: alternatives left to right, greedy repetition prefers
longer, lazy repetition prefers shorter, and `search` tries start
positions left to right.  All patterns are matched with `re.IGNORECASE`,
modelled by comparing letters case-insensitively. -/

inductive RE where
  | emp : RE
  | lit : Char → RE
  | anyc : RE
  | wordc : RE
  | digitc : RE
  | seq : RE → RE → RE
  | alt : RE → RE → RE
  | star : Bool → RE → RE
  | opt : Bool → RE → RE
  | group : Nat → RE → RE
  | bol : RE
  | eol : RE
deriving Repr, DecidableEq

/-- Python `\w` (ASCII fragment): letters, digits, underscore. -/
def isWordChar (c : Char) : Bool := c.isAlphanum || c == '_'

/-- Captures recorded so far: `(group index, captured text)`, most recent
first. -/
abbrev Caps := List (Nat × List Char)

/-- Size measure used only to pick a sufficient fuel for the matcher. -/
def RE.size : RE → Nat
  | .emp | .lit _ | .anyc | .wordc | .digitc | .bol | .eol => 1
  | .seq a b | .alt a b => a.size + b.size + 1
  | .star _ a | .opt _ a | .group _ a => a.size + 1

/-- Backtracking matcher in continuation-passing style.  `s` is the
remaining input, `p` the absolute position (for `^`), `caps` the captures
so far; `k` receives the rest, new position and captures on each candidate
match of `r`.  Case-insensitive on literals, as under `re.IGNORECASE`. -/
def mRE : Nat → RE → List Char → Nat → Caps →
    (List Char → Nat → Caps → Option Caps) → Option Caps
  | 0, _, _, _, _, _ => none
  | _ + 1, .emp, s, p, caps, k => k s p caps
  | _ + 1, .lit c, s, p, caps, k =>
    match s with
    | [] => none
    | x :: rest => if pyLowerChar x == pyLowerChar c then k rest (p + 1) caps else none
  | _ + 1, .anyc, s, p, caps, k =>
    match s with
    | [] => none
    | x :: rest => if x == '\n' then none else k rest (p + 1) caps
  | _ + 1, .wordc, s, p, caps, k =>
    match s with
    | [] => none
    | x :: rest => if isWordChar x then k rest (p + 1) caps else none
  | _ + 1, .digitc, s, p, caps, k =>
    match s with
    | [] => none
    | x :: rest => if x.isDigit then k rest (p + 1) caps else none
  | f + 1, .seq a b, s, p, caps, k =>
    mRE f a s p caps fun s2 p2 caps2 => mRE f b s2 p2 caps2 k
  | f + 1, .alt a b, s, p, caps, k =>
    (mRE f a s p caps k).orElse fun _ => mRE f b s p caps k
  | f + 1, .star g a, s, p, caps, k =>
    let more := mRE f a s p caps fun s2 p2 caps2 =>
      if p < p2 then mRE f (.star g a) s2 p2 caps2 k else none
    if g then more.orElse fun _ => k s p caps
    else (k s p caps).orElse fun _ => more
  | f + 1, .opt g a, s, p, caps, k =>
    if g then (mRE f a s p caps k).orElse fun _ => k s p caps
    else (k s p caps).orElse fun _ => mRE f a s p caps k
  | f + 1, .group n a, s, p, caps, k =>
    mRE f a s p caps fun s2 p2 caps2 => k s2 p2 ((n, s.take (p2 - p)) :: caps2)
  | _ + 1, .bol, s, p, caps, k => if p == 0 then k s p caps else none
  | _ + 1, .eol, s, p, caps, k =>
    match s with
    | [] => k s p caps
    | ['\n'] => k s p caps
    | _ => none

/-- Try to match `r` at one fixed start position. -/
def reTryAt (r : RE) (s : List Char) (p : Nat) : Option Caps :=
  mRE ((r.size + 2) * (s.length + 2)) r s p [] fun _ _ caps => some caps

/-- `re.search`: try each start position left to right. -/
def reSearchAux (r : RE) : List Char → Nat → Option Caps
  | s, p =>
    match reTryAt r s p with
    | some caps => some caps
    | none =>
      match s with
      | [] => none
      | _ :: rest => reSearchAux r rest (p + 1)

/-- `re.search(r, s)`: leftmost match, with its captures. -/
def reSearch (r : RE) (s : List Char) : Option Caps := reSearchAux r s 0

/-- `match.group(i)`: latest capture of group `i`. -/
def capLookup (caps : Caps) (i : Nat) : Option (List Char) :=
  (caps.find? fun q => q.1 == i).map (·.2)

/-- `match.lastindex`, as used by the dispatcher: the highest-numbered
group that participated in the match (`0` when no group matched). -/
def lastIdx (caps : Caps) : Nat := caps.foldl (fun m q => max m q.1) 0

/-- Highest group number occurring in a pattern (`re.groups`). -/
def RE.maxGroup : RE → Nat
  | .emp | .lit _ | .anyc | .wordc | .digitc | .bol | .eol => 0
  | .seq a b | .alt a b => max a.maxGroup b.maxGroup
  | .star _ a | .opt _ a => a.maxGroup
  | .group n a => max n a.maxGroup

/-- `match.groups()` as positional handler arguments; a group that did not
participate (impossible for the repository's patterns) is modelled as the
empty text. -/
def reArgsList (r : RE) (caps : Caps) : List (List Char) :=
  (List.range r.maxGroup).map fun i => (capLookup caps (i + 1)).getD []

/-- Concatenation of single-character literals, for spelling out the
literal parts of the source's patterns. -/
def reOfList (s : List Char) : RE :=
  s.foldr (fun c r => RE.seq (RE.lit c) r) RE.emp

/-- Literal regex fragment from a string. -/
def rs (s : String) : RE := reOfList s.toList

/-- Greedy `x+`. -/
def rePlusG (r : RE) : RE := RE.seq r (RE.star true r)

/-- Lazy `x+?`. -/
def rePlusL (r : RE) : RE := RE.seq r (RE.star false r)

/-- Left-to-right alternation `a|b|...`. -/
def reAlts : List RE → RE
  | [] => RE.emp
  | [r] => r
  | r :: rest => RE.alt r (reAlts rest)

/-! ## Effects at the KeystrokeSink / OS boundary

Handlers act through the keystroke manager and the OS; those collaborators
are out of scope, so a handler's behaviour is recorded as the list of
requests it issues.  `sysOp` stands for the platform-glue handlers
(process launch, browser, window management), whose internals none of the
dispatch properties inspect. -/

inductive Action where
  | typeText (s : List Char)
  | sendKey (key : List Char) (mods : List (List Char))
  | keyCombo (combo : List Char)
  | sysOp (opName : List Char) (args : List (List Char))
deriving Repr, DecidableEq

/-- Result of running a handler: the requests it issued plus an optional
new value for `dictation_mode` (the only engine state handlers mutate), or
`err` when the handler raises. -/
inductive HRes where
  | ok (acts : List Action) (mode : Option Bool)
  | err
deriving Repr, DecidableEq

/-! ## Embedded key directives (`_check_press_key_commands`, `_press_key`) -/

/-- One entry of the source's `press_key_patterns` list: the pattern's
source text (the dispatcher substring-tests it for `ctrl`/`shift`/`alt`)
and its compiled form. -/
structure PKPat where
  src : List Char
  re : RE

/-- `(.+?)` as capture group `n`. -/
def grpLazyAny (n : Nat) : RE := RE.group n (rePlusL RE.anyc)

/-- Trailing `\.?$`. -/
def optDotEnd : RE := RE.seq (RE.opt true (RE.lit '.')) RE.eol

/-- The named-key alternation
`enter|tab|space|escape|backspace|delete|home|end|up|down|left|right|page up|page down|f\d+`. -/
def namedKeysRE : RE :=
  reAlts [rs "enter", rs "tab", rs "space", rs "escape", rs "backspace",
    rs "delete", rs "home", rs "end", rs "up", rs "down", rs "left",
    rs "right", rs "page up", rs "page down",
    RE.seq (RE.lit 'f') (rePlusG RE.digitc)]

/-- `ctrl|shift|alt`. -/
def modsRE : RE := reAlts [rs "ctrl", rs "shift", rs "alt"]

/-- The source's `press_key_patterns`, in their exact order. -/
def pressKeyPatterns : List PKPat :=
  [⟨lchars "press key (.+?)\\.?$",
    RE.seq (rs "press key ") (RE.seq (grpLazyAny 1) optDotEnd)⟩,
   ⟨lchars "press (.+?) key\\.?$",
    RE.seq (rs "press ") (RE.seq (grpLazyAny 1) (RE.seq (rs " key") optDotEnd))⟩,
   ⟨lchars "hit key (.+?)\\.?$",
    RE.seq (rs "hit key ") (RE.seq (grpLazyAny 1) optDotEnd)⟩,
   ⟨lchars "hit (.+?) key\\.?$",
    RE.seq (rs "hit ") (RE.seq (grpLazyAny 1) (RE.seq (rs " key") optDotEnd))⟩,
   ⟨lchars "^key (.+?)\\.?$",
    RE.seq RE.bol (RE.seq (rs "key ") (RE.seq (grpLazyAny 1) optDotEnd))⟩,
   ⟨lchars "^press (enter|tab|space|escape|backspace|delete|home|end|up|down|left|right|page up|page down|f\\d+)\\.?$",
    RE.seq RE.bol (RE.seq (rs "press ") (RE.seq (RE.group 1 namedKeysRE) optDotEnd))⟩,
   ⟨lchars "^hit (enter|tab|space|escape|backspace|delete|home|end|up|down|left|right|page up|page down|f\\d+)\\.?$",
    RE.seq RE.bol (RE.seq (rs "hit ") (RE.seq (RE.group 1 namedKeysRE) optDotEnd))⟩,
   ⟨lchars "press (ctrl|shift|alt) (.+?)\\.?$",
    RE.seq (rs "press ") (RE.seq (RE.group 1 modsRE)
      (RE.seq (RE.lit ' ') (RE.seq (grpLazyAny 2) optDotEnd)))⟩,
   ⟨lchars "hit (ctrl|shift|alt) (.+?)\\.?$",
    RE.seq (rs "hit ") (RE.seq (RE.group 1 modsRE)
      (RE.seq (RE.lit ' ') (RE.seq (grpLazyAny 2) optDotEnd)))⟩]

/-- Extraction of `key_name` from a press-key match, following the
dispatcher's branch on whether the pattern text mentions a modifier and on
`match.lastindex`. -/
def pkKeyName (p : PKPat) (caps : Caps) : List Char :=
  if isSubstr (lchars "ctrl") p.src || isSubstr (lchars "shift") p.src ||
      isSubstr (lchars "alt") p.src then
    if lastIdx caps == 2 then
      let modifier := pyStrip ((capLookup caps 1).getD [])
      let key := rstripDot (pyStrip ((capLookup caps 2).getD []))
      modifier ++ ' ' :: key
    else rstripDot (pyStrip ((capLookup caps 1).getD []))
  else rstripDot (pyStrip ((capLookup caps 1).getD []))

/-- Pattern loop of `_check_press_key_commands`: first matching pattern
yields the key name. -/
def checkPressKeyAux : List PKPat → List Char → Option (List Char)
  | [], _ => none
  | p :: ps, tl =>
    match reSearch p.re tl with
    | some caps => some (pkKeyName p caps)
    | none => checkPressKeyAux ps tl

/-- `_check_press_key_commands`, up to the key name it would press
(`none` when no directive matches). -/
def checkPressKey (t : List Char) : Option (List Char) :=
  checkPressKeyAux pressKeyPatterns (pyStrip (pyLower t))

/-- `_press_key`: split a spaced key specification into modifiers plus a
final key; sink failures are caught inside `_press_key` itself, so it
never raises to its caller.  An empty specification raises `IndexError`
internally, which the same handler catches: no request is issued. -/
def pressKeyActs (key : List Char) : List Action :=
  if key.contains ' ' then
    match splitWs key with
    | [m, k] => [Action.sendKey k [m]]
    | parts =>
      match parts.reverse with
      | [] => []
      | k :: revMods => [Action.sendKey k revMods.reverse]
  else [Action.sendKey key []]

/-! ## Command registry (`Command`, `_register_command`, `_execute_command`) -/

/-- A registered pattern: its source text, plus its compiled regex when
the text contains `(` (the source branches on `'(' in pattern`; patterns
without it are substring-tested). -/
structure Pat where
  src : List Char
  regex : Option RE
deriving Repr

/-- Literal (substring) pattern. -/
def plit (s : String) : Pat := ⟨s.toList, none⟩

/-- Capture-group pattern, with its compiled form. -/
def preg (s : String) (r : RE) : Pat := ⟨s.toList, some r⟩

/-- `Command` dataclass.  The handler is the interface-level behaviour of
the Python handler: captured-group arguments in, issued requests and an
optional `dictation_mode` update out, or `err` when it raises. -/
structure Cmd where
  name : List Char
  patterns : List Pat
  handler : List (List Char) → HRes
  description : List Char
  category : List Char

/-- `_register_command` on the registry (a `dict` in insertion order:
re-registering an existing name overwrites in place). -/
def registerCommand (reg : List Cmd) (c : Cmd) : List Cmd :=
  if reg.any fun d => d.name == c.name then
    reg.map fun d => if d.name == c.name then c else d
  else reg ++ [c]

/-- One pattern test inside `_execute_command`: regex patterns are
searched (captures become handler arguments), literal patterns are tested
by substring containment against the (already lower-cased) text. -/
def patMatch (p : Pat) (t : List Char) : Option (List (List Char)) :=
  match p.regex with
  | some r => (reSearch r t).map (reArgsList r)
  | none => if isSubstr p.src t then some [] else none

/-- First matching pattern of one command, with its index and arguments. -/
def findPat : List Pat → List Char → Option (Nat × List (List Char))
  | [], _ => none
  | p :: ps, t =>
    match patMatch p t with
    | some args => some (0, args)
    | none => (findPat ps t).map fun r => (r.1 + 1, r.2)

/-- Outcome of `_execute_command`: the index of the command that fired,
the index of its pattern, the arguments, and the handler's result — or no
match.  The source returns `True` exactly when a handler ran without
raising; either way no later command is tried. -/
inductive ExecOutcome where
  | fired (ci pi : Nat) (args : List (List Char)) (res : HRes)
  | noMatch
deriving Repr, DecidableEq

/-- `_execute_command`: first command (in registration order) with a
matching pattern fires; its handler runs on the captured arguments. -/
def executeCommand : List Cmd → List Char → ExecOutcome
  | [], _ => ExecOutcome.noMatch
  | c :: cs, t =>
    match findPat c.patterns t with
    | some (pi, args) => ExecOutcome.fired 0 pi args (c.handler args)
    | none =>
      match executeCommand cs t with
      | ExecOutcome.fired ci pi args res => ExecOutcome.fired (ci + 1) pi args res
      | ExecOutcome.noMatch => ExecOutcome.noMatch

/-! ## Wake words (`_has_wake_word`, `_remove_wake_words`) -/

/-- Does a contiguous run of whole words equal to `wp` occur in `tw`? -/
def hasRun (wp : List (List Char)) : List (List Char) → Bool
  | [] => wp.isEmpty
  | w :: rest => wp.isPrefixOf (w :: rest) || hasRun wp rest

/-- `_has_wake_word`: some configured wake word's words appear as a
contiguous run of whole words in the text. -/
def hasWakeWord (wakeWords : List (List Char)) (t : List Char) : Bool :=
  wakeWords.any fun w => hasRun (splitWs w) (splitWs t)

/-- Remove the first contiguous-run occurrence of `wp` from `tw` (the
inner loop of `_remove_wake_words`, which breaks after one removal). -/
def removeRun (wp : List (List Char)) : List (List Char) → List (List Char)
  | [] => []
  | w :: rest =>
    if wp.isPrefixOf (w :: rest) then (w :: rest).drop wp.length
    else w :: removeRun wp rest

/-- `_remove_wake_words`: for each configured wake word, delete its first
whole-word run occurrence, then re-join with single spaces and strip. -/
def removeWakeWords (wakeWords : List (List Char)) (t : List Char) : List Char :=
  pyStrip (joinSpace (wakeWords.foldl (fun tw w => removeRun (splitWs w) tw) (splitWs t)))

/-! ## Custom commands during dictation (`_check_custom_commands_in_dictation`) -/

/-- Outcome of the dictation-mode custom-command scan: a handler ran
(yielding its requests and mode update), a handler raised (the source
logs and returns `False`), or nothing matched. -/
inductive CustRes where
  | executed (acts : List Action) (mode : Option Bool)
  | errored
  | noMatch
deriving Repr, DecidableEq

/-- Does some pattern of the command hit the text, by the dictation-mode
rule: lower-cased pattern text equal to, or contained in, the text? -/
def custPatHit (pats : List Pat) (tl : List Char) : Bool :=
  pats.any fun p => pyLower p.src == tl || isSubstr (pyLower p.src) tl

/-- Command loop of `_check_custom_commands_in_dictation`: only commands
whose category is `custom` or `dictation` are considered; the first one
with a hitting pattern has its handler run with no arguments. -/
def checkCustomDictAux : List Cmd → List Char → CustRes
  | [], _ => CustRes.noMatch
  | c :: cs, tl =>
    if (c.category == lchars "custom" || c.category == lchars "dictation") &&
        custPatHit c.patterns tl then
      match c.handler [] with
      | HRes.ok acts m => CustRes.executed acts m
      | HRes.err => CustRes.errored
    else checkCustomDictAux cs tl

/-- `_check_custom_commands_in_dictation`. -/
def checkCustomDict (cmds : List Cmd) (t : List Char) : CustRes :=
  checkCustomDictAux cmds (pyStrip (pyLower t))

/-! ## The dispatch engine (`process_command`) -/

/-- The word lists the dispatcher reads from configuration. -/
structure DPConfig where
  wakeWords : List (List Char)
  stopWords : List (List Char)

/-- `text.strip().lower()`, the normalisation `process_command` applies
before anything else. -/
def pyNorm (t : List Char) : List Char := pyLower (pyStrip t)

/-- `process_command` after normalisation.  State is `dictation_mode`;
the result is the new mode plus the requests issued while handling the
utterance. -/
def processNormed (cfg : DPConfig) (cmds : List Cmd) (mode : Bool)
    (text : List Char) : Bool × List Action :=
  if text = [] then (mode, [])
  else if mode then
    if cfg.stopWords.any fun w => isSubstr w text then (false, [])
    else
      match checkPressKey text with
      | some key => (mode, pressKeyActs key)
      | none =>
        match checkCustomDict cmds text with
        | CustRes.executed acts m => (m.getD mode, acts)
        | _ => (mode, [Action.typeText (text ++ [' '])])
  else if hasWakeWord cfg.wakeWords text then
    match executeCommand cmds (removeWakeWords cfg.wakeWords text) with
    | ExecOutcome.fired _ _ _ (HRes.ok acts m) => (m.getD mode, acts)
    | _ => (mode, [])
  else (mode, [])

/-- `process_command`: normalise, then dispatch. -/
def processCommand (cfg : DPConfig) (cmds : List Cmd) (mode : Bool)
    (t : List Char) : Bool × List Action :=
  processNormed cfg cmds mode (pyNorm t)

/-! ## Default configuration and registry

The word lists and command set built by the constructor and
`_register_default_commands` when no configuration file overrides them. -/

/-- Default `commands.wake_words` / `commands.stop_dictation`. -/
def defaultConfig : DPConfig :=
  ⟨[lchars "activate", lchars "computer", lchars "hey assistant"],
   [lchars "stop dictation", lchars "end dictation"]⟩

/-- `_start_dictation` (no arguments; sets `dictation_mode = True`). -/
def hStartDictation : List (List Char) → HRes
  | [] => HRes.ok [] (some true)
  | _ => HRes.err

/-- `_stop_dictation` (no arguments; sets `dictation_mode = False`). -/
def hStopDictation : List (List Char) → HRes
  | [] => HRes.ok [] (some false)
  | _ => HRes.err

/-- The `lambda: ...send_key_combination(combo)` shortcut handlers. -/
def hKeyCombo (combo : String) : List (List Char) → HRes
  | [] => HRes.ok [Action.keyCombo combo.toList] none
  | _ => HRes.err

/-- A platform-glue handler taking `n` captured arguments and performing
an OS-level side effect outside the dispatch core. -/
def hSysOp (opName : String) (n : Nat) (args : List (List Char)) : HRes :=
  if args.length == n then HRes.ok [Action.sysOp opName.toList args] none
  else HRes.err

/-- `_type_text`: types the captured text (no trailing space here). -/
def hTypeText : List (List Char) → HRes
  | [s] => HRes.ok [Action.typeText s] none
  | _ => HRes.err

/-- `_press_key` used as the registered `press_key` command handler. -/
def hPressKey : List (List Char) → HRes
  | [k] => HRes.ok (pressKeyActs k) none
  | _ => HRes.err

/-- `open (\w+)` etc. -/
def reOneWordArg (verb : String) : RE :=
  RE.seq (rs (verb ++ " ")) (RE.group 1 (rePlusG RE.wordc))

/-- `type (.+)` etc. -/
def reRestArg (verb : String) : RE :=
  RE.seq (rs (verb ++ " ")) (RE.group 1 (rePlusG RE.anyc))

/-- The registration sequence of `_register_default_commands`, in source
order (`type_text` appears twice there; the second registration
overwrites the first in place). -/
def defaultRegistrations : List Cmd :=
  [⟨lchars "start_dictation",
    [plit "start dictation", plit "begin dictation", plit "dictation mode",
     plit "start typing"],
    hStartDictation, lchars "Start dictation mode", lchars "dictation"⟩,
   ⟨lchars "stop_dictation",
    [plit "stop dictation", plit "end dictation", plit "dictation off",
     plit "stop typing"],
    hStopDictation, lchars "Stop dictation mode", lchars "dictation"⟩,
   ⟨lchars "open_application",
    [preg "open (\\w+)" (reOneWordArg "open"),
     preg "launch (\\w+)" (reOneWordArg "launch"),
     preg "start (\\w+)" (reOneWordArg "start")],
    hSysOp "open_application" 1, lchars "Open an application",
    lchars "applications"⟩,
   ⟨lchars "close_application",
    [preg "close (\\w+)" (reOneWordArg "close"),
     preg "quit (\\w+)" (reOneWordArg "quit"),
     preg "exit (\\w+)" (reOneWordArg "exit")],
    hSysOp "close_application" 1, lchars "Close an application",
    lchars "applications"⟩,
   ⟨lchars "open_website",
    [preg "open website (.+)" (reRestArg "open website"),
     preg "go to (.+)" (reRestArg "go to"),
     preg "browse (.+)" (reRestArg "browse"),
     preg "visit (.+)" (reRestArg "visit")],
    hSysOp "open_website" 1, lchars "Open a website in browser",
    lchars "browser"⟩,
   ⟨lchars "search_web",
    [preg "search for (.+)" (reRestArg "search for"),
     preg "google (.+)" (reRestArg "google"),
     preg "look up (.+)" (reRestArg "look up")],
    hSysOp "search_web" 1, lchars "Search the web", lchars "browser"⟩,
   ⟨lchars "switch_window",
    [preg "switch to (.+)" (reRestArg "switch to"),
     preg "focus (.+)" (reRestArg "focus"),
     preg "show (.+)" (reRestArg "show")],
    hSysOp "switch_window" 1, lchars "Switch to a specific window",
    lchars "windows"⟩,
   ⟨lchars "minimize_window", [plit "minimize", plit "minimize window"],
    hSysOp "minimize_window" 0, lchars "Minimize current window",
    lchars "windows"⟩,
   ⟨lchars "maximize_window", [plit "maximize", plit "maximize window"],
    hSysOp "maximize_window" 0, lchars "Maximize current window",
    lchars "windows"⟩,
   ⟨lchars "copy", [plit "copy", plit "copy text"], hKeyCombo "ctrl+c",
    lchars "Copy selected text", lchars "shortcuts"⟩,
   ⟨lchars "paste", [plit "paste", plit "paste text"], hKeyCombo "ctrl+v",
    lchars "Paste text", lchars "shortcuts"⟩,
   ⟨lchars "cut", [plit "cut", plit "cut text"], hKeyCombo "ctrl+x",
    lchars "Cut selected text", lchars "shortcuts"⟩,
   ⟨lchars "undo", [plit "undo", plit "undo that"], hKeyCombo "ctrl+z",
    lchars "Undo last action", lchars "shortcuts"⟩,
   ⟨lchars "redo", [plit "redo", plit "redo that"], hKeyCombo "ctrl+y",
    lchars "Redo last action", lchars "shortcuts"⟩,
   ⟨lchars "select_all", [plit "select all", plit "select everything"],
    hKeyCombo "ctrl+a", lchars "Select all text", lchars "shortcuts"⟩,
   ⟨lchars "type_text",
    [preg "type (.+)" (reRestArg "type"),
     preg "write (.+)" (reRestArg "write"),
     preg "input (.+)" (reRestArg "input")],
    hTypeText, lchars "Type the specified text", lchars "text"⟩,
   ⟨lchars "new_tab", [plit "new tab", plit "open tab"], hKeyCombo "ctrl+t",
    lchars "Open new tab", lchars "navigation"⟩,
   ⟨lchars "close_tab", [plit "close tab"], hKeyCombo "ctrl+w",
    lchars "Close current tab", lchars "navigation"⟩,
   ⟨lchars "next_tab", [plit "next tab", plit "switch tab"],
    hKeyCombo "ctrl+tab", lchars "Switch to next tab", lchars "navigation"⟩,
   ⟨lchars "lock_screen", [plit "lock screen", plit "lock computer"],
    hSysOp "lock_screen" 0, lchars "Lock the screen", lchars "system"⟩,
   ⟨lchars "help", [plit "help", plit "show commands", plit "what can you do"],
    hSysOp "help" 0, lchars "Show available commands", lchars "help"⟩,
   ⟨lchars "status", [plit "status", plit "current mode"],
    hSysOp "status" 0, lchars "Show current status", lchars "help"⟩,
   ⟨lchars "type_text",
    [preg "type (.+)" (reRestArg "type"),
     preg "write (.+)" (reRestArg "write"),
     preg "input (.+)" (reRestArg "input")],
    hTypeText, lchars "Type the specified text", lchars "input"⟩,
   ⟨lchars "press_key",
    [preg "press (.+)" (reRestArg "press"),
     preg "hit (.+)" (reRestArg "hit"),
     preg "key (.+)" (reRestArg "key")],
    hPressKey, lchars "Press the specified key", lchars "input"⟩]

/-- The default registry, as the `dict` left by `_register_default_commands`
with no custom commands configured. -/
def defaultCommands : List Cmd :=
  defaultRegistrations.foldl registerCommand []

/-! ## Utterance segmentation (`VoiceRecognizer._record_audio_segment`)

Frames are modelled by the volume `_calculate_volume` computes for them
(a non-negative RMS value; the float computation itself, clamped to `0.0`
on degenerate input, is outside the segmentation logic).  Durations are
exact rationals `frame_count * chunk_size / sample_rate`, matching the
source expressions.  The capture loop of `_record_audio_segment` blocks
waiting for the next frame when the queue is empty, so a finite frame
stream that ends before the silence threshold is crossed never reaches
the emission code: the model returns `none` (nothing emitted) there. -/

structure SegConfig where
  sampleRate : ℚ
  chunkSize : ℚ
  silenceThreshold : ℚ
  silenceDuration : ℚ
  minAudioLength : ℚ
deriving DecidableEq

/-- Defaults: 16000 Hz, 1024-sample chunks, threshold 500, 2.0 s silence,
1.0 s minimum length. -/
def defaultSegConfig : SegConfig := ⟨16000, 1024, 500, 2, 1⟩

/-- The checks after the capture loop breaks: empty buffer or total
duration below `min_audio_length` → discard, else emit. -/
def segFinalize (cfg : SegConfig) (acc : List ℚ) : Option (List ℚ) :=
  if acc.isEmpty then none
  else if (acc.length * cfg.chunkSize) / cfg.sampleRate < cfg.minAudioLength then none
  else some acc

/-- The capture loop: `acc` is `audio_frames`, `sil` is `silence_frames`,
`speaking` is `speaking_started`.  A loud frame is appended and resets the
silence run; a silent frame before speech starts is discarded; a silent
frame after speech starts is appended and, once the silence run exceeds
`silence_duration`, the loop breaks into `segFinalize`. -/
def recordAux (cfg : SegConfig) : List ℚ → List ℚ → Nat → Bool → Option (List ℚ)
  | [], _, _, _ => none
  | v :: rest, acc, sil, speaking =>
    if cfg.silenceThreshold < v then recordAux cfg rest (acc ++ [v]) 0 true
    else if speaking then
      if cfg.silenceDuration < ((sil + 1 : Nat) * cfg.chunkSize) / cfg.sampleRate then
        segFinalize cfg (acc ++ [v])
      else recordAux cfg rest (acc ++ [v]) (sil + 1) true
    else recordAux cfg rest acc sil false

/-- `_record_audio_segment` on a stream of frame volumes: `some u` when an
utterance (the list of buffered frames) is emitted, `none` when nothing
is. -/
def recordSegment (cfg : SegConfig) (frames : List ℚ) : Option (List ℚ) :=
  recordAux cfg frames [] 0 false

/-- The spec's rule for literal-pattern matching, stated in its words:
the case-folded pattern text appears anywhere in the case-folded input
text.  Kept separate from `patMatch` so the two can be compared. -/
def specLiteralMatches (p t : List Char) : Bool :=
  isSubstr (pyLower p) (pyLower t)

/-! ## General lemmas -/

/-- A pointwise-false predicate makes `List.any` false. -/
theorem list_any_false {α : Type} (p : α → Bool) (l : List α)
    (h : ∀ x ∈ l, p x = false) : l.any p = false := by
  induction l with
  | nil => rfl
  | cons a r ih =>
    simp only [List.any_cons, Bool.or_eq_false_iff]
    exact ⟨h a (List.mem_cons_self a r),
      ih fun x hx => h x (List.mem_cons_of_mem a hx)⟩

/-! ## Theorems for the claims -/

/-- **C1** (embedded key directive precedence): in Dictation mode with the
default registry, `"press enter."` performs exactly one key press
(`enter`, no modifiers) and types nothing; `"press enter key"` behaves
identically; `"enter."` matches no key directive and exactly the literal
text `"enter. "` (one trailing space) is typed. -/
theorem c1_press_key_directives :
    processCommand defaultConfig defaultCommands true (lchars "press enter.") =
      (true, [Action.sendKey (lchars "enter") []]) ∧
    processCommand defaultConfig defaultCommands true (lchars "press enter key") =
      (true, [Action.sendKey (lchars "enter") []]) ∧
    checkPressKey (lchars "enter.") = none ∧
    processCommand defaultConfig defaultCommands true (lchars "enter.") =
      (true, [Action.typeText (lchars "enter. ")]) := by
  refine ⟨by decide, by decide, by decide, by decide⟩

/-- **C4** (wake-word stripping, whole-word): with wake word `activate`,
`"activate open browser"` contains the wake word and stripping it yields
the command text `"open browser"`; `"deactivate open browser"` contains
no wake word as a whole-word run, and — for every registry — the
utterance is ignored entirely: no action, mode unchanged. -/
theorem c4_wake_word_whole_token :
    hasWakeWord [lchars "activate"] (pyNorm (lchars "activate open browser")) = true ∧
    removeWakeWords [lchars "activate"] (pyNorm (lchars "activate open browser")) =
      lchars "open browser" ∧
    hasWakeWord [lchars "activate"] (pyNorm (lchars "deactivate open browser")) = false ∧
    ∀ cmds : List Cmd,
      processCommand ⟨[lchars "activate"], defaultConfig.stopWords⟩ cmds false
        (lchars "deactivate open browser") = (false, []) := by
  refine ⟨by decide, by decide, by decide, fun cmds => ?_⟩
  have hw : hasWakeWord [lchars "activate"]
      (pyNorm (lchars "deactivate open browser")) = false := by decide
  have hne : ¬(pyNorm (lchars "deactivate open browser") = []) := by decide
  simp [processCommand, processNormed, hne, hw]

/-- **C6** (stop-dictation priority): in Dictation mode, any input whose
normalised text contains a configured (non-empty) stop-dictation phrase
transitions the mode to Command with nothing typed and no other action,
for every registry of custom commands. -/
theorem c6_stop_dictation_priority (cfg : DPConfig) (cmds : List Cmd)
    (t stop : List Char) (hs : stop ∈ cfg.stopWords) (hne : stop ≠ [])
    (hsub : isSubstr stop (pyNorm t) = true) :
    processCommand cfg cmds true t = (false, []) := by
  have hn : ¬(pyNorm t = []) := by
    intro h
    rw [h] at hsub
    cases stop with
    | nil => exact hne rfl
    | cons c r => simp [isSubstr, List.isEmpty] at hsub
  have hany : (cfg.stopWords.any fun w => isSubstr w (pyNorm t)) = true :=
    List.any_eq_true.mpr ⟨stop, hs, hsub⟩
  simp [processCommand, processNormed, hn, hany]

/-- Witness for `c6_stop_dictation_priority` at the default configuration
and registry on the input `"stop dictation"`. -/
theorem c6_witness :
    processCommand defaultConfig defaultCommands true (lchars "stop dictation") =
      (false, []) :=
  c6_stop_dictation_priority defaultConfig defaultCommands
    (lchars "stop dictation") (lchars "stop dictation")
    (by decide) (by decide) (by decide)

/-- **C9 counterexample**: from the initial Command state with the default
configuration, the bare input `"start dictation"` contains no wake word,
so sending it twice leaves the mode at Command (`false`) — not Dictation
as the claim states. -/
theorem c9_cex :
    processCommand defaultConfig defaultCommands false (lchars "start dictation") =
      (false, []) ∧
    (processCommand defaultConfig defaultCommands
        (processCommand defaultConfig defaultCommands false
          (lchars "start dictation")).1
        (lchars "start dictation")).1 = false := by
  refine ⟨by decide, by decide⟩

/-- **C9 amended** (idempotent mode toggling): a bare `"start dictation"`
from the initial Command state is ignored for lack of a wake word (mode
stays Command); once the system is in Dictation — e.g. after
`"activate start dictation"` — a further `"start dictation"` is consumed
by the `start_dictation` command and leaves the mode at Dictation, with
no toggle back to Command. -/
theorem c9_no_double_toggle :
    processCommand defaultConfig defaultCommands false (lchars "start dictation") =
      (false, []) ∧
    processCommand defaultConfig defaultCommands true (lchars "start dictation") =
      (true, []) ∧
    (processCommand defaultConfig defaultCommands
        (processCommand defaultConfig defaultCommands false
          (lchars "activate start dictation")).1
        (lchars "start dictation")).1 = true := by
  refine ⟨by decide, by decide, by decide⟩

/-! ## Segmenter lemmas (claim C3) -/

/-- With the default chunk size and sample rate, the silence-break test
`silence_duration < n * chunk / rate` holds iff at least 32 silent frames
have accumulated. -/
theorem silence_break_iff (n : Nat) :
    ((2 : ℚ) < ((n : ℚ) * 1024) / 16000) ↔ 32 ≤ n := by
  rw [lt_div_iff₀ (by norm_num : (0 : ℚ) < 16000)]
  constructor
  · intro h
    by_contra hn
    push_neg at hn
    have h31 : (n : ℚ) ≤ 31 := by exact_mod_cast Nat.le_of_lt_succ hn
    nlinarith
  · intro h
    have h32 : (32 : ℚ) ≤ (n : ℚ) := by exact_mod_cast h
    nlinarith

/-- With the default chunk size and sample rate, the emission test
`n * chunk / rate < min_audio_length` holds iff the buffer has at most 15
frames. -/
theorem min_length_lt_iff (n : Nat) :
    (((n : ℚ) * 1024) / 16000 < 1) ↔ n ≤ 15 := by
  rw [div_lt_iff₀ (by norm_num : (0 : ℚ) < 16000)]
  constructor
  · intro h
    by_contra hn
    push_neg at hn
    have h16 : (16 : ℚ) ≤ (n : ℚ) := by exact_mod_cast hn
    nlinarith
  · intro h
    have h15 : (n : ℚ) ≤ 15 := by exact_mod_cast h
    nlinarith

/-- Running the default-configuration capture loop, already speaking, on a
run of silent frames that reaches the 32nd accumulated silent frame at its
end: the loop breaks there and finalises the whole buffer. -/
theorem recordAux_silent_run (k : Nat) : ∀ (sil : Nat) (acc : List ℚ),
    1 ≤ k → sil + k = 32 →
    recordAux defaultSegConfig (List.replicate k (0 : ℚ)) acc sil true =
      segFinalize defaultSegConfig (acc ++ List.replicate k (0 : ℚ)) := by
  induction k with
  | zero => intro sil acc h1 _; omega
  | succ k ih =>
    intro sil acc _ h2
    rw [List.replicate_succ]
    have hth : ¬(defaultSegConfig.silenceThreshold < (0 : ℚ)) := by
      show ¬((500 : ℚ) < 0)
      norm_num
    by_cases hk : k = 0
    · subst hk
      have hbreak : defaultSegConfig.silenceDuration <
          (((sil + 1 : Nat) : ℚ) * defaultSegConfig.chunkSize) /
            defaultSegConfig.sampleRate := by
        show (2 : ℚ) < (((sil + 1 : Nat) : ℚ) * 1024) / 16000
        exact (silence_break_iff (sil + 1)).mpr (by omega)
      show (if defaultSegConfig.silenceThreshold < (0 : ℚ) then
          recordAux defaultSegConfig (List.replicate 0 (0 : ℚ))
            (acc ++ [(0 : ℚ)]) 0 true
        else if true then
          if defaultSegConfig.silenceDuration <
              (((sil + 1 : Nat) : ℚ) * defaultSegConfig.chunkSize) /
                defaultSegConfig.sampleRate then
            segFinalize defaultSegConfig (acc ++ [(0 : ℚ)])
          else
            recordAux defaultSegConfig (List.replicate 0 (0 : ℚ))
              (acc ++ [(0 : ℚ)]) (sil + 1) true
        else recordAux defaultSegConfig (List.replicate 0 (0 : ℚ)) acc sil false) =
          segFinalize defaultSegConfig (acc ++ List.replicate 1 (0 : ℚ))
      rw [if_neg hth, if_pos rfl, if_pos hbreak]
      rfl
    · have hnobreak : ¬(defaultSegConfig.silenceDuration <
          (((sil + 1 : Nat) : ℚ) * defaultSegConfig.chunkSize) /
            defaultSegConfig.sampleRate) := by
        show ¬((2 : ℚ) < (((sil + 1 : Nat) : ℚ) * 1024) / 16000)
        rw [silence_break_iff (sil + 1)]
        omega
      have step : recordAux defaultSegConfig ((0 : ℚ) :: List.replicate k 0)
          acc sil true =
          recordAux defaultSegConfig (List.replicate k (0 : ℚ))
            (acc ++ [(0 : ℚ)]) (sil + 1) true := by
        show (if defaultSegConfig.silenceThreshold < (0 : ℚ) then
            recordAux defaultSegConfig (List.replicate k (0 : ℚ))
              (acc ++ [(0 : ℚ)]) 0 true
          else if true then
            if defaultSegConfig.silenceDuration <
                (((sil + 1 : Nat) : ℚ) * defaultSegConfig.chunkSize) /
                  defaultSegConfig.sampleRate then
              segFinalize defaultSegConfig (acc ++ [(0 : ℚ)])
            else
              recordAux defaultSegConfig (List.replicate k (0 : ℚ))
                (acc ++ [(0 : ℚ)]) (sil + 1) true
          else recordAux defaultSegConfig (List.replicate k (0 : ℚ)) acc sil false) =
            recordAux defaultSegConfig (List.replicate k (0 : ℚ))
              (acc ++ [(0 : ℚ)]) (sil + 1) true
        rw [if_neg hth, if_pos rfl, if_neg hnobreak]
      rw [step, ih (sil + 1) (acc ++ [(0 : ℚ)]) (by omega) (by omega)]
      rw [List.append_assoc, List.singleton_append]

/-- Concrete run used by claim C3: one active frame (volume 600) followed
by 32 silent frames under the default configuration is emitted whole. -/
theorem recordSegment_eval :
    recordSegment defaultSegConfig ((600 : ℚ) :: List.replicate 32 0) =
      some ((600 : ℚ) :: List.replicate 32 0) := by
  have hact : defaultSegConfig.silenceThreshold < (600 : ℚ) := by
    show (500 : ℚ) < 600
    norm_num
  have step : recordSegment defaultSegConfig ((600 : ℚ) :: List.replicate 32 0) =
      recordAux defaultSegConfig (List.replicate 32 (0 : ℚ)) [(600 : ℚ)] 0 true := by
    show (if defaultSegConfig.silenceThreshold < (600 : ℚ) then
        recordAux defaultSegConfig (List.replicate 32 (0 : ℚ))
          ([] ++ [(600 : ℚ)]) 0 true
      else if false then
        if defaultSegConfig.silenceDuration <
            (((0 + 1 : Nat) : ℚ) * defaultSegConfig.chunkSize) /
              defaultSegConfig.sampleRate then
          segFinalize defaultSegConfig ([] ++ [(600 : ℚ)])
        else
          recordAux defaultSegConfig (List.replicate 32 (0 : ℚ))
            ([] ++ [(600 : ℚ)]) (0 + 1) true
      else recordAux defaultSegConfig (List.replicate 32 (0 : ℚ)) [] 0 false) =
        recordAux defaultSegConfig (List.replicate 32 (0 : ℚ)) [(600 : ℚ)] 0 true
    rw [if_pos hact, List.nil_append]
  rw [step, recordAux_silent_run 32 0 [(600 : ℚ)] (by omega) (by omega)]
  have hlen : ([(600 : ℚ)] ++ List.replicate 32 (0 : ℚ)).length = 33 := by
    simp
  have hmin : ¬((((([(600 : ℚ)] ++ List.replicate 32 (0 : ℚ)).length : Nat) : ℚ) *
      defaultSegConfig.chunkSize) / defaultSegConfig.sampleRate <
      defaultSegConfig.minAudioLength) := by
    show ¬(((([(600 : ℚ)] ++ List.replicate 32 (0 : ℚ)).length : ℚ) * 1024) /
        16000 < 1)
    rw [min_length_lt_iff, hlen]
    omega
  have hne : ¬(([(600 : ℚ)] ++ List.replicate 32 (0 : ℚ)).isEmpty = true) := by
    simp
  show (if ([(600 : ℚ)] ++ List.replicate 32 (0 : ℚ)).isEmpty then none
    else if ((([(600 : ℚ)] ++ List.replicate 32 (0 : ℚ)).length : ℚ) *
        defaultSegConfig.chunkSize) / defaultSegConfig.sampleRate <
        defaultSegConfig.minAudioLength then none
    else some ([(600 : ℚ)] ++ List.replicate 32 (0 : ℚ))) =
      some ((600 : ℚ) :: List.replicate 32 0)
  rw [if_neg hne, if_neg hmin, List.singleton_append]

/-- Emission through `segFinalize` implies the minimum-duration bound. -/
theorem segFinalize_min (cfg : SegConfig) (acc u : List ℚ)
    (h : segFinalize cfg acc = some u) :
    cfg.minAudioLength ≤ ((u.length : ℚ) * cfg.chunkSize) / cfg.sampleRate := by
  unfold segFinalize at h
  by_cases he : acc.isEmpty
  · simp [he] at h
  · by_cases hlt : ((acc.length : ℚ) * cfg.chunkSize) / cfg.sampleRate <
        cfg.minAudioLength
    · simp [he, hlt] at h
    · simp [he, hlt] at h
      rw [← h]
      exact le_of_not_lt hlt

/-- Emission through the capture loop implies the minimum-duration bound. -/
theorem recordAux_min (cfg : SegConfig) (frames : List ℚ) : ∀ (acc : List ℚ)
    (sil : Nat) (sp : Bool) (u : List ℚ),
    recordAux cfg frames acc sil sp = some u →
    cfg.minAudioLength ≤ ((u.length : ℚ) * cfg.chunkSize) / cfg.sampleRate := by
  induction frames with
  | nil =>
    intro acc sil sp u h
    simp [recordAux] at h
  | cons v rest ih =>
    intro acc sil sp u h
    rw [recordAux] at h
    by_cases hv : cfg.silenceThreshold < v
    · rw [if_pos hv] at h
      exact ih (acc ++ [v]) 0 true u h
    · rw [if_neg hv] at h
      cases sp with
      | false =>
        simp only [Bool.false_eq_true, if_false] at h
        exact ih acc sil false u h
      | true =>
        simp only [if_true] at h
        by_cases hb : cfg.silenceDuration <
            (((sil + 1 : Nat) : ℚ) * cfg.chunkSize) / cfg.sampleRate
        · rw [if_pos hb] at h
          exact segFinalize_min cfg (acc ++ [v]) u h
        · rw [if_neg hb] at h
          exact ih (acc ++ [v]) (sil + 1) true u h

/-- **C3 counterexample**: under the default configuration (16000 Hz,
1024-sample chunks, 2.0 s silence threshold, 1.0 s minimum), a segment
begun by one active frame and closed by the accumulated trailing silence
is emitted (33 frames ≈ 2.112 s total) — not discarded as the claim's
example states. -/
theorem c3_cex :
    recordSegment defaultSegConfig ((600 : ℚ) :: List.replicate 32 0) =
      some ((600 : ℚ) :: List.replicate 32 0) :=
  recordSegment_eval

/-- **C3 amended** (segmentation minimum duration): every emitted
utterance satisfies `min_audio_length ≤ frame_count * chunk_size /
sample_rate`; but the total counts trailing-silence frames, so the
claim's one-active-frame example is emitted (total ≈ 2.112 s), not
discarded. -/
theorem c3_min_duration (cfg : SegConfig) (frames u : List ℚ)
    (h : recordSegment cfg frames = some u) :
    cfg.minAudioLength ≤ ((u.length : ℚ) * cfg.chunkSize) / cfg.sampleRate :=
  recordAux_min cfg frames [] 0 false u h

/-- Witness for `c3_min_duration` on the concrete emitted segment. -/
theorem c3_min_duration_witness :
    defaultSegConfig.minAudioLength ≤
      (((((600 : ℚ) :: List.replicate 32 0).length : Nat) : ℚ) *
        defaultSegConfig.chunkSize) / defaultSegConfig.sampleRate :=
  c3_min_duration defaultSegConfig ((600 : ℚ) :: List.replicate 32 0)
    ((600 : ℚ) :: List.replicate 32 0) recordSegment_eval

/-! ## Registry dispatch lemmas (claims C5, C7) -/

/-- `findPat` fails exactly when every pattern of the command fails. -/
theorem findPat_eq_none_iff (ps : List Pat) (t : List Char) :
    findPat ps t = none ↔ ∀ p ∈ ps, patMatch p t = none := by
  induction ps with
  | nil => simp [findPat]
  | cons p ps ih =>
    cases hm : patMatch p t with
    | some args => simp [findPat, hm]
    | none => simp [findPat, hm, ih]

/-- A successful `findPat` returns the first matching pattern: the pattern
at the returned index matches with the returned arguments, and every
earlier pattern fails. -/
theorem findPat_spec (ps : List Pat) (t : List Char) : ∀ (pi : Nat)
    (args : List (List Char)), findPat ps t = some (pi, args) →
    ∃ hpi : pi < ps.length,
      patMatch (ps.get ⟨pi, hpi⟩) t = some args ∧
      ∀ q (hq : q < pi), patMatch (ps.get ⟨q, Nat.lt_trans hq hpi⟩) t = none := by
  induction ps with
  | nil => intro pi args h; simp [findPat] at h
  | cons p ps ih =>
    intro pi args h
    simp only [findPat] at h
    cases hm : patMatch p t with
    | some args0 =>
      rw [hm] at h
      simp only [Option.some.injEq, Prod.mk.injEq] at h
      obtain ⟨h1, h2⟩ := h
      subst h1
      subst h2
      refine ⟨Nat.succ_pos _, hm, ?_⟩
      intro q hq
      exact absurd hq (Nat.not_lt_zero q)
    | none =>
      rw [hm] at h
      cases hf : findPat ps t with
      | none => rw [hf] at h; simp at h
      | some r =>
        obtain ⟨pi0, args0⟩ := r
        rw [hf] at h
        injection h with h1
        injection h1 with ha hb
        subst ha
        subst hb
        obtain ⟨hpi0, hmatch, hbefore⟩ := ih pi0 args0 hf
        refine ⟨Nat.succ_lt_succ hpi0, hmatch, ?_⟩
        intro q hq
        cases q with
        | zero => exact hm
        | succ q0 => exact hbefore q0 (Nat.lt_of_succ_lt_succ hq)

/-- `_execute_command` reports no match exactly when every registered
command's every pattern fails. -/
theorem exec_eq_nomatch_iff (cmds : List Cmd) (t : List Char) :
    executeCommand cmds t = ExecOutcome.noMatch ↔
      ∀ c ∈ cmds, findPat c.patterns t = none := by
  induction cmds with
  | nil => simp [executeCommand]
  | cons c cs ih =>
    cases hf : findPat c.patterns t with
    | some r =>
      obtain ⟨pi, args⟩ := r
      simp [executeCommand, hf]
    | none =>
      cases hx : executeCommand cs t with
      | fired ci pi args res => simp [executeCommand, hf, hx, ← ih]
      | noMatch => simp [executeCommand, hf, hx, ← ih]

/-- A fired `_execute_command` fired the first command (in registration
order) with a matching pattern, ran exactly its handler on the captured
arguments, and every earlier command had no matching pattern. -/
theorem exec_fired_spec (cmds : List Cmd) (t : List Char) : ∀ (ci pi : Nat)
    (args : List (List Char)) (res : HRes),
    executeCommand cmds t = ExecOutcome.fired ci pi args res →
    ∃ hci : ci < cmds.length,
      findPat (cmds.get ⟨ci, hci⟩).patterns t = some (pi, args) ∧
      res = (cmds.get ⟨ci, hci⟩).handler args ∧
      ∀ k (hk : k < ci),
        findPat (cmds.get ⟨k, Nat.lt_trans hk hci⟩).patterns t = none := by
  induction cmds with
  | nil => intro ci pi args res h; simp [executeCommand] at h
  | cons c cs ih =>
    intro ci pi args res h
    cases hf : findPat c.patterns t with
    | some r =>
      obtain ⟨pi0, args0⟩ := r
      simp only [executeCommand, hf] at h
      injection h with h1 h2 h3 h4
      subst h1
      subst h2
      subst h3
      subst h4
      refine ⟨Nat.succ_pos _, hf, rfl, ?_⟩
      intro k hk
      exact absurd hk (Nat.not_lt_zero k)
    | none =>
      cases hx : executeCommand cs t with
      | noMatch =>
        simp only [executeCommand, hf, hx] at h
        exact ExecOutcome.noConfusion h
      | fired ci0 pi0 args0 res0 =>
        simp only [executeCommand, hf, hx] at h
        injection h with h1 h2 h3 h4
        subst h1
        subst h2
        subst h3
        subst h4
        obtain ⟨hci0, hfp, hres, hbefore⟩ := ih ci0 pi0 args0 res0 hx
        refine ⟨Nat.succ_lt_succ hci0, hfp, hres, ?_⟩
        intro k hk
        cases k with
        | zero => exact hf
        | succ k0 => exact hbefore k0 (Nat.lt_of_succ_lt_succ hk)

/-- **C5** (first-match wins): if commands `i < j` both have a matching
pattern for the text and no command before `i` matches, then
`_execute_command` fires command `i`, running its handler on the
arguments of its first matching pattern (all earlier patterns of `i`
fail), and the later command `j`'s handler is never invoked. -/
theorem c5_first_match_wins (cmds : List Cmd) (t : List Char) (i j : Nat)
    (hij : i < j) (hj : j < cmds.length)
    (hmi : ∃ p ∈ (cmds.get ⟨i, Nat.lt_trans hij hj⟩).patterns,
      patMatch p t ≠ none)
    (_hmj : ∃ p ∈ (cmds.get ⟨j, hj⟩).patterns, patMatch p t ≠ none)
    (hfirst : ∀ k (hk : k < i), ∀ p ∈
      (cmds.get ⟨k, Nat.lt_trans hk (Nat.lt_trans hij hj)⟩).patterns,
      patMatch p t = none) :
    ∃ pi args,
      executeCommand cmds t =
        ExecOutcome.fired i pi args
          ((cmds.get ⟨i, Nat.lt_trans hij hj⟩).handler args) ∧
      (∃ hpi : pi < (cmds.get ⟨i, Nat.lt_trans hij hj⟩).patterns.length,
        patMatch ((cmds.get ⟨i, Nat.lt_trans hij hj⟩).patterns.get ⟨pi, hpi⟩)
          t = some args ∧
        ∀ q (hq : q < pi),
          patMatch ((cmds.get ⟨i, Nat.lt_trans hij hj⟩).patterns.get
            ⟨q, Nat.lt_trans hq hpi⟩) t = none) ∧
      ∀ pi2 args2 res2,
        executeCommand cmds t ≠ ExecOutcome.fired j pi2 args2 res2 := by
  have hilt : i < cmds.length := Nat.lt_trans hij hj
  have hfi : findPat (cmds.get ⟨i, hilt⟩).patterns t ≠ none := by
    intro hn
    obtain ⟨p, hp, hpm⟩ := hmi
    exact hpm ((findPat_eq_none_iff _ _).mp hn p hp)
  cases hx : executeCommand cmds t with
  | noMatch =>
    exact absurd ((exec_eq_nomatch_iff _ _).mp hx _ (List.get_mem cmds i hilt))
      hfi
  | fired ci pi args res =>
    obtain ⟨hci, hfp, hres, hbefore⟩ := exec_fired_spec cmds t ci pi args res hx
    have hcii : ci = i := by
      rcases Nat.lt_trichotomy ci i with hlt | heq | hgt
      · exact absurd hfp (by
          rw [(findPat_eq_none_iff _ _).mpr (hfirst ci hlt)]
          simp)
      · exact heq
      · exact absurd (hbefore i hgt) hfi
    subst hcii
    refine ⟨pi, args, by rw [hres], findPat_spec _ t pi args hfp, ?_⟩
    intro pi2 args2 res2 hne
    injection hne with h1 h2 h3 h4
    omega

/-- Registry used by the C5 witness: two commands whose literal pattern
`"copy"` both match the text `"copy"`. -/
def c5wCmds : List Cmd :=
  [⟨lchars "first", [⟨lchars "copy", none⟩], hKeyCombo "ctrl+c",
    lchars "", lchars "shortcuts"⟩,
   ⟨lchars "second", [⟨lchars "copy", none⟩], hKeyCombo "ctrl+x",
    lchars "", lchars "shortcuts"⟩]

/-- Witness for `c5_first_match_wins`: of two commands both matching
`"copy"`, the first registered fires and the second never runs. -/
theorem c5_witness :
    ∃ pi args,
      executeCommand c5wCmds (lchars "copy") =
        ExecOutcome.fired 0 pi args
          ((c5wCmds.get ⟨0, by decide⟩).handler args) ∧
      (∃ hpi : pi < (c5wCmds.get ⟨0, by decide⟩).patterns.length,
        patMatch ((c5wCmds.get ⟨0, by decide⟩).patterns.get ⟨pi, hpi⟩)
          (lchars "copy") = some args ∧
        ∀ q (hq : q < pi),
          patMatch ((c5wCmds.get ⟨0, by decide⟩).patterns.get
            ⟨q, Nat.lt_trans hq hpi⟩) (lchars "copy") = none) ∧
      ∀ pi2 args2 res2,
        executeCommand c5wCmds (lchars "copy") ≠
          ExecOutcome.fired 1 pi2 args2 res2 :=
  c5_first_match_wins c5wCmds (lchars "copy") 0 1 (by omega) (by decide)
    (by decide) (by decide)
    (fun k hk => absurd hk (Nat.not_lt_zero k))

/-- **C7** (no-match drop): in Command mode, when the text has a wake word
but no registered command's pattern matches the residual text, no handler
runs (`_execute_command` reports no match), nothing is typed, and the
mode is unchanged. -/
theorem c7_no_match_drop (cfg : DPConfig) (cmds : List Cmd) (t : List Char)
    (hw : hasWakeWord cfg.wakeWords (pyNorm t) = true)
    (hnm : ∀ c ∈ cmds, ∀ p ∈ c.patterns,
      patMatch p (removeWakeWords cfg.wakeWords (pyNorm t)) = none) :
    executeCommand cmds (removeWakeWords cfg.wakeWords (pyNorm t)) =
      ExecOutcome.noMatch ∧
    processCommand cfg cmds false t = (false, []) := by
  have hex : executeCommand cmds (removeWakeWords cfg.wakeWords (pyNorm t)) =
      ExecOutcome.noMatch :=
    (exec_eq_nomatch_iff _ _).mpr fun c hc => (findPat_eq_none_iff _ _).mpr (hnm c hc)
  refine ⟨hex, ?_⟩
  by_cases he : pyNorm t = []
  · simp [processCommand, processNormed, he]
  · simp [processCommand, processNormed, he, hw, hex]

/-- Witness for `c7_no_match_drop`: the default registry matches nothing
in the residual text `"zzz qqq"`. -/
theorem c7_witness :
    executeCommand defaultCommands
      (removeWakeWords defaultConfig.wakeWords (pyNorm (lchars "activate zzz qqq"))) =
      ExecOutcome.noMatch ∧
    processCommand defaultConfig defaultCommands false (lchars "activate zzz qqq") =
      (false, []) :=
  c7_no_match_drop defaultConfig defaultCommands (lchars "activate zzz qqq")
    (by decide) (by decide)

/-! ## Error handling (claim C2) -/

/-- A configured custom command whose handler raises, as arises e.g. for a
`keystroke`-type custom command whose sink call fails
(`send_key_combination` logs and re-raises). -/
def errCmd : Cmd :=
  ⟨lchars "macro", [⟨lchars "run macro", none⟩], fun _ => HRes.err,
   lchars "failing custom command", lchars "custom"⟩

/-- **C2 counterexample**: in Dictation mode, the input `"run macro"`
matches the custom command `errCmd`, its handler raises
(`_check_custom_commands_in_dictation` returns `False`), and
`process_command` then falls through to typing — the text
`"run macro "` IS sent as typed text, contradicting the claim that a
raising handler never lets the text be typed. -/
theorem c2_cex :
    checkCustomDict [errCmd] (lchars "run macro") = CustRes.errored ∧
    processCommand defaultConfig [errCmd] true (lchars "run macro") =
      (true, [Action.typeText (lchars "run macro ")]) := by
  refine ⟨by decide, by decide⟩

/-- **C2 amended**: a raising handler never reaches a later handler and
never crashes the dispatch, and in Command mode the utterance is consumed
with nothing typed; but in Dictation mode a raising custom-command
handler falls through to typing the utterance text (with the trailing
space) — the text is not suppressed there. -/
theorem c2_handler_error (cfg : DPConfig) (cmds : List Cmd) (t : List Char) :
    ((∃ ci pi args,
        executeCommand cmds (removeWakeWords cfg.wakeWords (pyNorm t)) =
          ExecOutcome.fired ci pi args HRes.err) →
      processCommand cfg cmds false t = (false, [])) ∧
    (pyNorm t ≠ [] →
      (∀ w ∈ cfg.stopWords, isSubstr w (pyNorm t) = false) →
      checkPressKey (pyNorm t) = none →
      checkCustomDict cmds (pyNorm t) = CustRes.errored →
      processCommand cfg cmds true t =
        (true, [Action.typeText (pyNorm t ++ [' '])])) := by
  constructor
  · rintro ⟨ci, pi, args, hx⟩
    by_cases he : pyNorm t = []
    · simp [processCommand, processNormed, he]
    · by_cases hw : hasWakeWord cfg.wakeWords (pyNorm t)
      · simp [processCommand, processNormed, he, hw, hx]
      · simp [processCommand, processNormed, he, hw]
  · intro hne hstop hpk hcust
    have hany : (cfg.stopWords.any fun w => isSubstr w (pyNorm t)) = false :=
      list_any_false _ _ hstop
    simp [processCommand, processNormed, hne, hany, hpk, hcust]

/-- Witness for `c2_handler_error` on `errCmd`: in Command mode the
utterance `"activate run macro"` fires the failing handler and is
consumed silently; in Dictation mode `"run macro"` is typed despite the
failing handler. -/
theorem c2_witness :
    processCommand defaultConfig [errCmd] false (lchars "activate run macro") =
      (false, []) ∧
    processCommand defaultConfig [errCmd] true (lchars "run macro") =
      (true, [Action.typeText (lchars "run macro ")]) :=
  ⟨(c2_handler_error defaultConfig [errCmd] (lchars "activate run macro")).1
      ⟨0, 0, [], by decide⟩,
   (c2_handler_error defaultConfig [errCmd] (lchars "run macro")).2
      (by decide) (by decide) (by decide) (by decide)⟩

/-! ## Literal pattern matching (claim C8) -/

/-- **C8 counterexample**: the literal pattern `"Copy"` (uppercase) does
not match the input `"copy this"`, although the spec's rule — case-fold
both sides — says it should: `_execute_command` substring-tests the raw
pattern text against the (already lower-cased) input and never folds the
pattern. -/
theorem c8_cex :
    patMatch ⟨lchars "Copy", none⟩ (lchars "copy this") = none ∧
    specLiteralMatches (lchars "Copy") (lchars "copy this") = true := by
  refine ⟨by decide, by decide⟩

/-- **C8 amended**: a literal pattern matches iff its raw text appears
verbatim as a substring of the input text; since the engine lower-cases
the input before matching, this coincides with the spec's case-folded
rule exactly for patterns that are already lower-case. -/
theorem c8_literal_matching (p t : List Char) :
    (patMatch ⟨p, none⟩ t).isSome = isSubstr p t ∧
    (pyLower p = p →
      (patMatch ⟨p, none⟩ (pyLower t)).isSome = specLiteralMatches p t) := by
  constructor
  · by_cases h : isSubstr p t = true
    · simp [patMatch, h]
    · simp [patMatch, Bool.not_eq_true] at h ⊢
      simp [h]
  · intro hp
    unfold specLiteralMatches
    rw [hp]
    by_cases h : isSubstr p (pyLower t) = true
    · simp [patMatch, h]
    · simp [patMatch, Bool.not_eq_true] at h ⊢
      simp [h]

/-- Witness for `c8_literal_matching` at the lower-case pattern `"copy"`
and the mixed-case input `"Please COPY this"`. -/
theorem c8_witness :
    (patMatch ⟨lchars "copy", none⟩ (lchars "Please COPY this")).isSome =
      isSubstr (lchars "copy") (lchars "Please COPY this") ∧
    (patMatch ⟨lchars "copy", none⟩ (pyLower (lchars "Please COPY this"))).isSome =
      specLiteralMatches (lchars "copy") (lchars "Please COPY this") :=
  ⟨(c8_literal_matching (lchars "copy") (lchars "Please COPY this")).1,
   (c8_literal_matching (lchars "copy") (lchars "Please COPY this")).2 (by decide)⟩

/-! ## Normalisation (claim C10) -/

/-- **C10** (normalisation and dictation fall-through): `process_command`
first strips and lower-cases the input; an input that is empty after
stripping is a no-op in either mode; and in Dictation mode, when no stop
phrase, key directive or custom command matches, exactly
`lower(strip(t))` plus one trailing space is sent as typed text — the
raw mixed-case input never reaches matching or typing. -/
theorem c10_normalisation (cfg : DPConfig) (cmds : List Cmd) (t : List Char)
    (mode : Bool) :
    (pyNorm t = [] → processCommand cfg cmds mode t = (mode, [])) ∧
    ((∀ w ∈ cfg.stopWords, isSubstr w (pyNorm t) = false) →
      checkPressKey (pyNorm t) = none →
      checkCustomDict cmds (pyNorm t) = CustRes.noMatch →
      pyNorm t ≠ [] →
      processCommand cfg cmds true t =
        (true, [Action.typeText (pyLower (pyStrip t) ++ [' '])])) := by
  constructor
  · intro he
    simp [processCommand, processNormed, he]
  · intro hstop hpk hcust hne
    have hany : (cfg.stopWords.any fun w => isSubstr w (pyNorm t)) = false :=
      list_any_false _ _ hstop
    simp [processCommand, processNormed, hne, hany, hpk, hcust]
    rfl

/-- Witness for `c10_normalisation`: whitespace-only input is a no-op;
`"  Hello World  "` is typed as exactly `"hello world "`. -/
theorem c10_witness :
    processCommand defaultConfig [] false (lchars "   ") = (false, []) ∧
    processCommand defaultConfig [] true (lchars "  Hello World  ") =
      (true, [Action.typeText (lchars "hello world ")]) :=
  ⟨(c10_normalisation defaultConfig [] (lchars "   ") false).1 (by decide),
   (c10_normalisation defaultConfig [] (lchars "  Hello World  ") true).2
      (by decide) (by decide) (by decide) (by decide)⟩

end VCD
